import Mathlib

/-!
Verification development for the futures trading engine
(`trading_bot/strategies/futures_trading_engine.py`).

The engine's numeric code is shallowly embedded over `ℚ`: Python floats
become exact rationals, Python's `round` becomes `pyRound` (round half to
even) and `round(x, d)` becomes `pyRoundDec d x`.  The decimal-precision
counts that the source derives locally from the decimal string of
`tickSize` / `stepSize` (`price_precision`, `quantity_precision`) are
passed as explicit `ℕ` parameters; theorems that rely on the precision
matching the tick/step carry the side condition `∃ k : ℤ, v * 10 ^ prec = k`,
which is exactly what the source's digit count guarantees for a decimal
tick or step.  Fallible code returns `Option` / `Except`; effectful API
call sequences are modelled as explicit event lists driven by oracle
inputs describing the exchange's responses.
-/

namespace FuturesEngine

/-- Python's built-in `round` to an integer: round half to even. -/
def pyRound (q : ℚ) : ℤ :=
  if q - ⌊q⌋ < 1/2 then ⌊q⌋
  else if 1/2 < q - ⌊q⌋ then ⌊q⌋ + 1
  else if ⌊q⌋ % 2 = 0 then ⌊q⌋ else ⌊q⌋ + 1

/-- Python's `round(q, d)`: round half to even at `d` decimal digits. -/
def pyRoundDec (d : ℕ) (q : ℚ) : ℚ :=
  (pyRound (q * 10 ^ d) : ℚ) / 10 ^ d

/-- `v` has at most `d` decimal digits: `v * 10^d` is an integer.  This is
what the source's `len(f"{v:.10f}".rstrip('0').split('.')[-1])` digit
count guarantees for the decimal tick/step sizes it is applied to. -/
def DecimalAt (v : ℚ) (d : ℕ) : Prop :=
  ∃ k : ℤ, v * 10 ^ d = (k : ℚ)

/-- `round_down_to_tick` from `_set_stop_loss_take_profit_orders`:
`round(math.floor(p / tick_size) * tick_size, price_precision)`, with the
`tick_size <= 0` guard returning `round(p, price_precision)`. -/
def roundDownToTick (tick : ℚ) (prec : ℕ) (p : ℚ) : ℚ :=
  if tick ≤ 0 then pyRoundDec prec p
  else pyRoundDec prec ((⌊p / tick⌋ : ℚ) * tick)

/-- `round_up_to_tick` from `_set_stop_loss_take_profit_orders`:
`round(math.ceil(p / tick_size) * tick_size, price_precision)`. -/
def roundUpToTick (tick : ℚ) (prec : ℕ) (p : ℚ) : ℚ :=
  if tick ≤ 0 then pyRoundDec prec p
  else pyRoundDec prec ((⌈p / tick⌉ : ℚ) * tick)

/-- Quantity snapping shared by `_calculate_trade_quantity` and
`_calculate_reduce_quantity`: when `step_size > 0`,
`round(q / step_size) * step_size` followed by
`round(·, quantity_precision)`. -/
def snapToStep (step : ℚ) (prec : ℕ) (q : ℚ) : ℚ :=
  if 0 < step then pyRoundDec prec ((pyRound (q / step) : ℚ) * step)
  else q

lemma pyRound_intCast (n : ℤ) : pyRound (n : ℚ) = n := by
  unfold pyRound
  rw [Int.floor_intCast]
  norm_num

lemma pyRound_le_floor_add_one (q : ℚ) : pyRound q ≤ ⌊q⌋ + 1 := by
  unfold pyRound
  split_ifs <;> omega

lemma pyRound_le_of_le {x : ℚ} {n : ℤ} (h : x ≤ n) : pyRound x ≤ n := by
  rcases eq_or_lt_of_le h with heq | hlt
  · rw [heq, pyRound_intCast]
  · have hf : ⌊x⌋ < n := Int.floor_lt.mpr hlt
    have := pyRound_le_floor_add_one x
    omega

lemma pyRoundDec_eq_self {d : ℕ} {q : ℚ} (h : DecimalAt q d) :
    pyRoundDec d q = q := by
  obtain ⟨k, hk⟩ := h
  unfold pyRoundDec
  rw [hk, pyRound_intCast]
  have h10 : (10 : ℚ) ^ d ≠ 0 := by positivity
  field_simp [← hk]

lemma DecimalAt.int_mul {v : ℚ} {d : ℕ} (h : DecimalAt v d) (n : ℤ) :
    DecimalAt ((n : ℚ) * v) d := by
  obtain ⟨k, hk⟩ := h
  exact ⟨n * k, by push_cast; rw [mul_assoc, hk]⟩

lemma roundDownToTick_eq {tick : ℚ} {prec : ℕ} (ht : 0 < tick)
    (hg : DecimalAt tick prec) (p : ℚ) :
    roundDownToTick tick prec p = (⌊p / tick⌋ : ℚ) * tick := by
  unfold roundDownToTick
  rw [if_neg (not_le.mpr ht)]
  exact pyRoundDec_eq_self (hg.int_mul _)

lemma roundUpToTick_eq {tick : ℚ} {prec : ℕ} (ht : 0 < tick)
    (hg : DecimalAt tick prec) (p : ℚ) :
    roundUpToTick tick prec p = (⌈p / tick⌉ : ℚ) * tick := by
  unfold roundUpToTick
  rw [if_neg (not_le.mpr ht)]
  exact pyRoundDec_eq_self (hg.int_mul _)

lemma floor_tick_mul_le {tick : ℚ} (ht : 0 < tick) (p : ℚ) :
    (⌊p / tick⌋ : ℚ) * tick ≤ p := by
  have h1 : (⌊p / tick⌋ : ℚ) ≤ p / tick := Int.floor_le _
  calc (⌊p / tick⌋ : ℚ) * tick ≤ (p / tick) * tick :=
        mul_le_mul_of_nonneg_right h1 (le_of_lt ht)
    _ = p := div_mul_cancel₀ p (ne_of_gt ht)

lemma le_ceil_tick_mul {tick : ℚ} (ht : 0 < tick) (p : ℚ) :
    p ≤ (⌈p / tick⌉ : ℚ) * tick := by
  have h1 : p / tick ≤ (⌈p / tick⌉ : ℚ) := Int.le_ceil _
  calc p = (p / tick) * tick := (div_mul_cancel₀ p (ne_of_gt ht)).symm
    _ ≤ (⌈p / tick⌉ : ℚ) * tick := mul_le_mul_of_nonneg_right h1 (le_of_lt ht)

lemma snapToStep_eq {step : ℚ} {prec : ℕ} (hs : 0 < step)
    (hg : DecimalAt step prec) (q : ℚ) :
    snapToStep step prec q = (pyRound (q / step) : ℚ) * step := by
  unfold snapToStep
  rw [if_pos hs]
  exact pyRoundDec_eq_self (hg.int_mul _)

lemma snapToStep_le_grid {step q : ℚ} {prec : ℕ} {n : ℤ} (hs : 0 < step)
    (hg : DecimalAt step prec) (h : q ≤ (n : ℚ) * step) :
    snapToStep step prec q ≤ (n : ℚ) * step := by
  rw [snapToStep_eq hs hg]
  have hdiv : q / step ≤ (n : ℚ) := by
    rw [div_le_iff₀ hs]
    exact h
  have := pyRound_le_of_le hdiv
  exact mul_le_mul_of_nonneg_right (by exact_mod_cast this) (le_of_lt hs)

/-! ## Protective order price adjustment
(`_set_stop_loss_take_profit_orders`, engine lines 847-895)

When the current (`last`) price is positive, the stop-loss for a long
(`side == "BUY"`) is forced at least one tick below it
(`min(stop_loss_price, current_price - tick_size)`) and rounded down to the
tick grid; the take-profit is forced at least one tick above
(`max(tp_price, current_price + tick_size)`) and rounded up.  Shorts are
symmetric.  When the price fetch failed (`current_price = 0`) the AI price
is submitted unadjusted. -/

/-- The stop price submitted with the `STOP_MARKET` order. -/
def adjustedStopLossPrice (side : String) (tick : ℚ) (prec : ℕ)
    (lastPrice slp : ℚ) : ℚ :=
  if 0 < lastPrice then
    if side = "BUY" then roundDownToTick tick prec (min slp (lastPrice - tick))
    else roundUpToTick tick prec (max slp (lastPrice + tick))
  else slp

/-- The stop price submitted with the `TAKE_PROFIT_MARKET` order. -/
def adjustedTakeProfitPrice (side : String) (tick : ℚ) (prec : ℕ)
    (lastPrice tpp : ℚ) : ℚ :=
  if 0 < lastPrice then
    if side = "BUY" then roundUpToTick tick prec (max tpp (lastPrice + tick))
    else roundDownToTick tick prec (min tpp (lastPrice - tick))
  else tpp

/-- Claim C1: for positive last price `L` and tick `t`, the protective
stop prices are on the tick grid and strictly on the safe side of `L`: for
a long, the stop-loss is a multiple of `t` strictly below `L` and an
immediately-triggering AI stop-loss (`slp ≥ L`) is shifted to exactly
`L - t` before rounding down; the take-profit is a multiple of `t` strictly
above `L`, an immediately-triggering one (`tpp ≤ L`) shifted to exactly
`L + t` before rounding up.  Symmetric for shorts (`side = "SELL"`). -/
theorem protective_stop_prices_directional
    (tick lastPrice slp tpp : ℚ) (prec : ℕ)
    (ht : 0 < tick) (hL : 0 < lastPrice) (hg : DecimalAt tick prec) :
    ((∃ n : ℤ, adjustedStopLossPrice "BUY" tick prec lastPrice slp = (n : ℚ) * tick)
      ∧ adjustedStopLossPrice "BUY" tick prec lastPrice slp < lastPrice
      ∧ (lastPrice ≤ slp →
          adjustedStopLossPrice "BUY" tick prec lastPrice slp
            = roundDownToTick tick prec (lastPrice - tick)))
    ∧ ((∃ n : ℤ, adjustedTakeProfitPrice "BUY" tick prec lastPrice tpp = (n : ℚ) * tick)
      ∧ lastPrice < adjustedTakeProfitPrice "BUY" tick prec lastPrice tpp
      ∧ (tpp ≤ lastPrice →
          adjustedTakeProfitPrice "BUY" tick prec lastPrice tpp
            = roundUpToTick tick prec (lastPrice + tick)))
    ∧ ((∃ n : ℤ, adjustedStopLossPrice "SELL" tick prec lastPrice slp = (n : ℚ) * tick)
      ∧ lastPrice < adjustedStopLossPrice "SELL" tick prec lastPrice slp
      ∧ (slp ≤ lastPrice →
          adjustedStopLossPrice "SELL" tick prec lastPrice slp
            = roundUpToTick tick prec (lastPrice + tick)))
    ∧ ((∃ n : ℤ, adjustedTakeProfitPrice "SELL" tick prec lastPrice tpp = (n : ℚ) * tick)
      ∧ adjustedTakeProfitPrice "SELL" tick prec lastPrice tpp < lastPrice
      ∧ (lastPrice ≤ tpp →
          adjustedTakeProfitPrice "SELL" tick prec lastPrice tpp
            = roundDownToTick tick prec (lastPrice - tick))) := by
  have hBuySL : adjustedStopLossPrice "BUY" tick prec lastPrice slp
      = roundDownToTick tick prec (min slp (lastPrice - tick)) := by
    simp [adjustedStopLossPrice, hL]
  have hBuyTP : adjustedTakeProfitPrice "BUY" tick prec lastPrice tpp
      = roundUpToTick tick prec (max tpp (lastPrice + tick)) := by
    simp [adjustedTakeProfitPrice, hL]
  have hSellSL : adjustedStopLossPrice "SELL" tick prec lastPrice slp
      = roundUpToTick tick prec (max slp (lastPrice + tick)) := by
    simp [adjustedStopLossPrice, hL]
  have hSellTP : adjustedTakeProfitPrice "SELL" tick prec lastPrice tpp
      = roundDownToTick tick prec (min tpp (lastPrice - tick)) := by
    simp [adjustedTakeProfitPrice, hL]
  refine ⟨⟨?_, ?_, ?_⟩, ⟨?_, ?_, ?_⟩, ⟨?_, ?_, ?_⟩, ⟨?_, ?_, ?_⟩⟩
  · exact ⟨⌊min slp (lastPrice - tick) / tick⌋, by
      rw [hBuySL, roundDownToTick_eq ht hg]⟩
  · rw [hBuySL, roundDownToTick_eq ht hg]
    calc (⌊min slp (lastPrice - tick) / tick⌋ : ℚ) * tick
        ≤ min slp (lastPrice - tick) := floor_tick_mul_le ht _
      _ ≤ lastPrice - tick := min_le_right _ _
      _ < lastPrice := by linarith
  · intro hshift
    rw [hBuySL, min_eq_right (by linarith)]
  · exact ⟨⌈max tpp (lastPrice + tick) / tick⌉, by
      rw [hBuyTP, roundUpToTick_eq ht hg]⟩
  · rw [hBuyTP, roundUpToTick_eq ht hg]
    calc lastPrice < lastPrice + tick := by linarith
      _ ≤ max tpp (lastPrice + tick) := le_max_right _ _
      _ ≤ (⌈max tpp (lastPrice + tick) / tick⌉ : ℚ) * tick := le_ceil_tick_mul ht _
  · intro hshift
    rw [hBuyTP, max_eq_right (by linarith)]
  · exact ⟨⌈max slp (lastPrice + tick) / tick⌉, by
      rw [hSellSL, roundUpToTick_eq ht hg]⟩
  · rw [hSellSL, roundUpToTick_eq ht hg]
    calc lastPrice < lastPrice + tick := by linarith
      _ ≤ max slp (lastPrice + tick) := le_max_right _ _
      _ ≤ (⌈max slp (lastPrice + tick) / tick⌉ : ℚ) * tick := le_ceil_tick_mul ht _
  · intro hshift
    rw [hSellSL, max_eq_right (by linarith)]
  · exact ⟨⌊min tpp (lastPrice - tick) / tick⌋, by
      rw [hSellTP, roundDownToTick_eq ht hg]⟩
  · rw [hSellTP, roundDownToTick_eq ht hg]
    calc (⌊min tpp (lastPrice - tick) / tick⌋ : ℚ) * tick
        ≤ min tpp (lastPrice - tick) := floor_tick_mul_le ht _
      _ ≤ lastPrice - tick := min_le_right _ _
      _ < lastPrice := by linarith
  · intro hshift
    rw [hSellTP, min_eq_right (by linarith)]

/-- Witness for C1 at `tick = 1/10` (precision 1), `last = 30000`, AI
stop-loss `30010` (the spec's scenario 2), AI take-profit `29000`. -/
theorem protective_stop_prices_directional_witness :
    ((0 : ℚ) < 1/10 ∧ (0 : ℚ) < 30000 ∧ DecimalAt (1/10) 1)
    ∧ (((∃ n : ℤ, adjustedStopLossPrice "BUY" (1/10) 1 30000 30010 = (n : ℚ) * (1/10))
      ∧ adjustedStopLossPrice "BUY" (1/10) 1 30000 30010 < 30000
      ∧ ((30000 : ℚ) ≤ 30010 →
          adjustedStopLossPrice "BUY" (1/10) 1 30000 30010
            = roundDownToTick (1/10) 1 (30000 - 1/10)))
    ∧ ((∃ n : ℤ, adjustedTakeProfitPrice "BUY" (1/10) 1 30000 29000 = (n : ℚ) * (1/10))
      ∧ (30000 : ℚ) < adjustedTakeProfitPrice "BUY" (1/10) 1 30000 29000
      ∧ ((29000 : ℚ) ≤ 30000 →
          adjustedTakeProfitPrice "BUY" (1/10) 1 30000 29000
            = roundUpToTick (1/10) 1 (30000 + 1/10)))
    ∧ ((∃ n : ℤ, adjustedStopLossPrice "SELL" (1/10) 1 30000 30010 = (n : ℚ) * (1/10))
      ∧ (30000 : ℚ) < adjustedStopLossPrice "SELL" (1/10) 1 30000 30010
      ∧ ((30010 : ℚ) ≤ 30000 →
          adjustedStopLossPrice "SELL" (1/10) 1 30000 30010
            = roundUpToTick (1/10) 1 (30000 + 1/10)))
    ∧ ((∃ n : ℤ, adjustedTakeProfitPrice "SELL" (1/10) 1 30000 29000 = (n : ℚ) * (1/10))
      ∧ adjustedTakeProfitPrice "SELL" (1/10) 1 30000 29000 < 30000
      ∧ ((30000 : ℚ) ≤ 29000 →
          adjustedTakeProfitPrice "SELL" (1/10) 1 30000 29000
            = roundDownToTick (1/10) 1 (30000 - 1/10)))) :=
  ⟨⟨by norm_num, by norm_num, ⟨1, by norm_num⟩⟩,
    protective_stop_prices_directional (1/10) 30000 30010 29000 1
      (by norm_num) (by norm_num) ⟨1, by norm_num⟩⟩

/-! ## Orphan protective-order sweep
(`cleanup_orphan_tp_sl_orders`, engine lines 1381-1423, and its invocation
at the end of `execute_futures_trading_decisions`, lines 528-533) -/

/-- A position row as returned by `get_current_positions`. -/
structure PositionRow where
  symbol : String
  amount : ℚ
deriving DecidableEq

/-- An open order row as returned by `futures_get_open_orders`. -/
structure OpenOrderRow where
  symbol : String
  orderType : String
  orderId : ℕ
deriving DecidableEq

/-- The set of symbols that still hold a position:
`abs(position_amount) > 0`. -/
def activeSymbols (positions : List PositionRow) : List String :=
  (positions.filter (fun p => 0 < |p.amount|)).map (fun p => p.symbol)

/-- Order types treated as protective by the sweep. -/
def isProtectiveType (t : String) : Prop :=
  t = "STOP_MARKET" ∨ t = "TAKE_PROFIT_MARKET"

instance (t : String) : Decidable (isProtectiveType t) := by
  unfold isProtectiveType
  infer_instance

/-- `cleanup_orphan_tp_sl_orders`: the cancel requests
`(symbol, orderId)` issued by one sweep.  Orders with an empty symbol or a
symbol that still has a position are skipped; of the rest, exactly the
`STOP_MARKET` / `TAKE_PROFIT_MARKET` orders are cancelled. -/
def cleanupOrphanCancels (positions : List PositionRow)
    (orders : List OpenOrderRow) : List (String × ℕ) :=
  orders.filterMap (fun o =>
    if o.symbol = "" ∨ o.symbol ∈ activeSymbols positions then none
    else if isProtectiveType o.orderType then some (o.symbol, o.orderId)
    else none)

/-- End of `execute_futures_trading_decisions`: the sweep runs exactly when
the cycle is not a dry run. -/
def endOfCycleCancels (dryRun : Bool) (positions : List PositionRow)
    (orders : List OpenOrderRow) : List (String × ℕ) :=
  if dryRun then [] else cleanupOrphanCancels positions orders

/-- The orders still resting after the sweep's cancel requests succeed. -/
def remainingOrders (positions : List PositionRow)
    (orders : List OpenOrderRow) : List OpenOrderRow :=
  orders.filter (fun o => (o.symbol, o.orderId) ∉ cleanupOrphanCancels positions orders)

lemma mem_activeSymbols {positions : List PositionRow} {s : String} :
    s ∈ activeSymbols positions ↔ ∃ p ∈ positions, 0 < |p.amount| ∧ p.symbol = s := by
  unfold activeSymbols
  simp only [List.mem_map, List.mem_filter, decide_eq_true_eq]
  constructor
  · rintro ⟨p, ⟨hp, hpos⟩, hs⟩
    exact ⟨p, hp, hpos, hs⟩
  · rintro ⟨p, hp, hpos, hs⟩
    exact ⟨p, ⟨hp, hpos⟩, hs⟩

/-- Claim C2: after the non-dry-run end-of-cycle sweep, every protective
order on a (nonempty) symbol whose position amount is zero receives a
cancel request; orders on symbols with a non-zero position are untouched;
consequently no protective order remains resting on a positionless symbol. -/
theorem cleanup_orphan_tp_sl_spec
    (positions : List PositionRow) (orders : List OpenOrderRow) :
    (∀ o ∈ orders, o.symbol ≠ "" → isProtectiveType o.orderType →
      (∀ p ∈ positions, p.symbol = o.symbol → p.amount = 0) →
      (o.symbol, o.orderId) ∈ endOfCycleCancels false positions orders)
    ∧ (∀ o ∈ orders, ∀ p ∈ positions, p.symbol = o.symbol → p.amount ≠ 0 →
      (o.symbol, o.orderId) ∉ endOfCycleCancels false positions orders)
    ∧ (∀ o ∈ remainingOrders positions orders, o.symbol ≠ "" →
      (∀ p ∈ positions, p.symbol = o.symbol → p.amount = 0) →
      ¬ isProtectiveType o.orderType) := by
  have hnotactive : ∀ o : OpenOrderRow,
      (∀ p ∈ positions, p.symbol = o.symbol → p.amount = 0) →
      o.symbol ∉ activeSymbols positions := by
    intro o hzero hmem
    obtain ⟨p, hp, hpos, hs⟩ := mem_activeSymbols.mp hmem
    have := hzero p hp hs
    rw [this] at hpos
    simp at hpos
  refine ⟨?_, ?_, ?_⟩
  · intro o ho hne hprot hzero
    unfold endOfCycleCancels cleanupOrphanCancels
    rw [if_neg (by simp)]
    refine List.mem_filterMap.mpr ⟨o, ho, ?_⟩
    rw [if_neg, if_pos hprot]
    push_neg
    exact ⟨hne, hnotactive o hzero⟩
  · intro o ho p hp hsym hamt hmem
    unfold endOfCycleCancels cleanupOrphanCancels at hmem
    rw [if_neg (by simp)] at hmem
    obtain ⟨o', ho', heq⟩ := List.mem_filterMap.mp hmem
    by_cases hskip : o'.symbol = "" ∨ o'.symbol ∈ activeSymbols positions
    · rw [if_pos hskip] at heq
      exact Option.noConfusion heq
    · rw [if_neg hskip] at heq
      by_cases hprot : isProtectiveType o'.orderType
      · rw [if_pos hprot] at heq
        have hpair : o'.symbol = o.symbol ∧ o'.orderId = o.orderId := by
          injection heq with h
          exact ⟨congrArg Prod.fst h, congrArg Prod.snd h⟩
        exact hskip (Or.inr (mem_activeSymbols.mpr
          ⟨p, hp, abs_pos.mpr hamt, hsym.trans hpair.1.symm⟩))
      · rw [if_neg hprot] at heq
        exact Option.noConfusion heq
  · intro o ho hne hzero hprot
    have hmem := List.mem_filter.mp ho
    have hcancel : (o.symbol, o.orderId) ∈ cleanupOrphanCancels positions orders := by
      refine List.mem_filterMap.mpr ⟨o, hmem.1, ?_⟩
      rw [if_neg, if_pos hprot]
      push_neg
      exact ⟨hne, hnotactive o hzero⟩
    have := hmem.2
    simp only [decide_eq_true_eq] at this
    exact this hcancel

/-- Witness for C2: one flat `BTCUSDT` position (amount 0 row), one
resting `STOP_MARKET` on `BTCUSDT`, one `ETHUSDT` position still open with
a protective order that must be untouched. -/
theorem cleanup_orphan_tp_sl_spec_witness :
    (OpenOrderRow.mk "BTCUSDT" "STOP_MARKET" 7 ∈
        ([⟨"BTCUSDT", "STOP_MARKET", 7⟩, ⟨"ETHUSDT", "TAKE_PROFIT_MARKET", 8⟩] :
          List OpenOrderRow)
      ∧ ("BTCUSDT" : String) ≠ ""
      ∧ isProtectiveType "STOP_MARKET")
    ∧ ("BTCUSDT", 7) ∈ endOfCycleCancels false
        ([⟨"BTCUSDT", 0⟩, ⟨"ETHUSDT", 2⟩] : List PositionRow)
        ([⟨"BTCUSDT", "STOP_MARKET", 7⟩, ⟨"ETHUSDT", "TAKE_PROFIT_MARKET", 8⟩] :
          List OpenOrderRow)
    ∧ ("ETHUSDT", 8) ∉ endOfCycleCancels false
        ([⟨"BTCUSDT", 0⟩, ⟨"ETHUSDT", 2⟩] : List PositionRow)
        ([⟨"BTCUSDT", "STOP_MARKET", 7⟩, ⟨"ETHUSDT", "TAKE_PROFIT_MARKET", 8⟩] :
          List OpenOrderRow) := by
  refine ⟨⟨by simp, by simp, Or.inl rfl⟩, ?_, ?_⟩
  · exact (cleanup_orphan_tp_sl_spec
      [⟨"BTCUSDT", 0⟩, ⟨"ETHUSDT", 2⟩]
      [⟨"BTCUSDT", "STOP_MARKET", 7⟩, ⟨"ETHUSDT", "TAKE_PROFIT_MARKET", 8⟩]).1
      ⟨"BTCUSDT", "STOP_MARKET", 7⟩ (by simp) (by simp) (Or.inl rfl)
      (by
        intro p hp hs
        fin_cases hp
        · rfl
        · simp at hs)
  · exact (cleanup_orphan_tp_sl_spec
      [⟨"BTCUSDT", 0⟩, ⟨"ETHUSDT", 2⟩]
      [⟨"BTCUSDT", "STOP_MARKET", 7⟩, ⟨"ETHUSDT", "TAKE_PROFIT_MARKET", 8⟩]).2.1
      ⟨"ETHUSDT", "TAKE_PROFIT_MARKET", 8⟩ (by simp)
      ⟨"ETHUSDT", 2⟩ (by simp) rfl (by norm_num)

/-! ## Order side and reduce-only flag per action
(`_execute_real_futures_trade`, engine lines 631-644, and
`_place_market_order`, lines 1157-1186) -/

/-- Side and `reduceOnly` chosen for an action: `reduce_only` starts
`False` and is set only in the close/reduce branches. -/
def actionSideReduceOnly (action : String) : String × Bool :=
  if action = "long" ∨ action = "buy" ∨ action = "add_to_long" then ("BUY", false)
  else if action = "short" ∨ action = "sell" ∨ action = "add_to_short" then ("SELL", false)
  else if action = "close_long" ∨ action = "reduce_long" then ("SELL", true)
  else if action = "close_short" ∨ action = "reduce_short" then ("BUY", true)
  else if action = "adjust_tp_sl" ∨ action = "cancel_tp_sl" then ("BUY", false)
  else ("BUY", false)

/-- The parameters of the `futures_create_order` call made by
`_place_market_order`. -/
structure MarketOrderReq where
  orderType : String
  side : String
  quantity : ℚ
  reduceOnly : Bool
deriving DecidableEq

/-- `_place_market_order`: a MARKET order carrying the caller's
`reduce_only` flag. -/
def placeMarketOrderReq (side : String) (quantity : ℚ) (reduceOnly : Bool) :
    MarketOrderReq :=
  ⟨"MARKET", side, quantity, reduceOnly⟩

/-- The entry order `_execute_real_futures_trade` submits for an action
(market-order case). -/
def entryOrderForAction (action : String) (quantity : ℚ) : MarketOrderReq :=
  placeMarketOrderReq (actionSideReduceOnly action).1 quantity
    (actionSideReduceOnly action).2

/-- Claim C5: every order submitted for a reduce/close action carries
`reduceOnly = true` (side SELL when closing a long, BUY when closing a
short), and every entry order for an open/add action carries
`reduceOnly = false` with the matching side. -/
theorem reduce_only_flags_spec (q : ℚ) :
    entryOrderForAction "reduce_long" q = ⟨"MARKET", "SELL", q, true⟩
    ∧ entryOrderForAction "close_long" q = ⟨"MARKET", "SELL", q, true⟩
    ∧ entryOrderForAction "reduce_short" q = ⟨"MARKET", "BUY", q, true⟩
    ∧ entryOrderForAction "close_short" q = ⟨"MARKET", "BUY", q, true⟩
    ∧ entryOrderForAction "long" q = ⟨"MARKET", "BUY", q, false⟩
    ∧ entryOrderForAction "short" q = ⟨"MARKET", "SELL", q, false⟩
    ∧ entryOrderForAction "add_to_long" q = ⟨"MARKET", "BUY", q, false⟩
    ∧ entryOrderForAction "add_to_short" q = ⟨"MARKET", "SELL", q, false⟩ := by
  refine ⟨?_, ?_, ?_, ?_, ?_, ?_, ?_, ?_⟩ <;>
    simp [entryOrderForAction, actionSideReduceOnly, placeMarketOrderReq]

/-! ## Decision gate
(`_create_futures_trading_decision`, engine lines 302-336, and the
execution filter in `execute_futures_trading_decisions`, lines 513-515) -/

/-- `trading.safety.min_confidence`, defaulting to 60. -/
def minConfidence (cfg : Option ℚ) : ℚ := cfg.getD 60

/-- The `should_execute` flag stored on a decision:
`action != "hold" and confidence >= min_conf`. -/
def shouldExecuteFlag (action : String) (confidence minConf : ℚ) : Bool :=
  decide (action ≠ "hold") && decide (minConf ≤ confidence)

/-- The decision fields relevant to the execution gate. -/
structure FuturesDecision where
  action : String
  confidence : ℚ
  shouldExecute : Bool
deriving DecidableEq

/-- Decision normalization: `should_execute` is computed from the action,
the confidence and the configured minimum confidence. -/
def makeFuturesDecision (action : String) (confidence : ℚ)
    (minConfCfg : Option ℚ) : FuturesDecision :=
  ⟨action, confidence, shouldExecuteFlag action confidence (minConfidence minConfCfg)⟩

/-- `execute_futures_trading_decisions` skips (`continue`) every decision
whose `should_execute` is falsy; these are the decisions reaching
`_execute_single_futures_trade`. -/
def decisionsReachingExecution (decisions : List FuturesDecision) :
    List FuturesDecision :=
  decisions.filter (fun d => d.shouldExecute)

/-- Claim C6: `should_execute` is true iff the action differs from `hold`
and the confidence is at least `minConfidence` (read from
`trading.safety.min_confidence`, default 60), and a decision with a false
flag is never passed to order execution. -/
theorem should_execute_gate_spec :
    (∀ (action : String) (confidence : ℚ) (cfg : Option ℚ),
      (makeFuturesDecision action confidence cfg).shouldExecute = true ↔
        (action ≠ "hold" ∧ minConfidence cfg ≤ confidence))
    ∧ minConfidence none = 60
    ∧ (∀ (decisions : List FuturesDecision) (d : FuturesDecision),
      d ∈ decisionsReachingExecution decisions → d.shouldExecute = true) := by
  refine ⟨?_, rfl, ?_⟩
  · intro action confidence cfg
    simp [makeFuturesDecision, shouldExecuteFlag]
  · intro decisions d hd
    exact (List.mem_filter.mp hd).2

/-- Witness for C6 at a `long` decision with confidence 80 and the default
configuration. -/
theorem should_execute_gate_spec_witness :
    ((makeFuturesDecision "long" 80 none).shouldExecute = true ↔
      (("long" : String) ≠ "hold" ∧ minConfidence none ≤ 80))
    ∧ minConfidence none = 60
    ∧ makeFuturesDecision "long" 80 none ∈
        decisionsReachingExecution [makeFuturesDecision "long" 80 none,
          makeFuturesDecision "hold" 90 none]
    ∧ (makeFuturesDecision "long" 80 none).shouldExecute = true :=
  ⟨should_execute_gate_spec.1 "long" 80 none,
    should_execute_gate_spec.2.1,
    by
      simp [decisionsReachingExecution, makeFuturesDecision, shouldExecuteFlag,
        minConfidence]
      norm_num,
    should_execute_gate_spec.2.2
      [makeFuturesDecision "long" 80 none, makeFuturesDecision "hold" 90 none]
      (makeFuturesDecision "long" 80 none)
      (by
        simp [decisionsReachingExecution, makeFuturesDecision, shouldExecuteFlag,
          minConfidence]
        norm_num)⟩

/-! ## LIMIT order placement and polling
(`_place_limit_order`, engine lines 1188-1275)

After submitting the GTC LIMIT order the source sleeps one second per
iteration and polls `futures_get_order` while wall time is below
`max_wait_time`; the poll budget is therefore modelled as a fuel of
`maxWait` one-second polls and the polled statuses as a function
`ℕ → String` (status seen at the i-th poll). -/

/-- One exchange API call made by `_place_limit_order`. -/
inductive OrderApiCall where
  | createLimit : OrderApiCall
  | createMarket : OrderApiCall
  | getOrder : OrderApiCall
  | cancelOrder : OrderApiCall
deriving DecidableEq

/-- `limit_order.max_wait_time`, defaulting to 300 seconds. -/
def limitMaxWaitTime (cfg : Option ℕ) : ℕ := cfg.getD 300

/-- The poll loop of `_place_limit_order`: at each iteration the order
status is fetched; `FILLED` succeeds, `CANCELED`/`REJECTED`/`EXPIRED`
fails with no further call, exhausting the budget cancels the order and
fails.  Returns the API calls made after order creation and the success
flag. -/
def pollLimitAux (statuses : ℕ → String) : ℕ → ℕ → List OrderApiCall × Bool
  | _, 0 => ([OrderApiCall.cancelOrder], false)
  | i, fuel + 1 =>
    if statuses i = "FILLED" then ([OrderApiCall.getOrder], true)
    else if statuses i = "CANCELED" ∨ statuses i = "REJECTED" ∨ statuses i = "EXPIRED" then
      ([OrderApiCall.getOrder], false)
    else
      let rest := pollLimitAux statuses (i + 1) fuel
      (OrderApiCall.getOrder :: rest.1, rest.2)

/-- `_place_limit_order`: create the LIMIT order, then poll.  The result
is the full list of API calls and whether the decision succeeded. -/
def placeLimitOrder (maxWait : ℕ) (statuses : ℕ → String) :
    List OrderApiCall × Bool :=
  let polled := pollLimitAux statuses 0 maxWait
  (OrderApiCall.createLimit :: polled.1, polled.2)

lemma pollLimitAux_no_market (statuses : ℕ → String) :
    ∀ fuel i, OrderApiCall.createMarket ∉ (pollLimitAux statuses i fuel).1 := by
  intro fuel
  induction fuel with
  | zero =>
    intro i
    simp [pollLimitAux]
  | succ n ih =>
    intro i
    unfold pollLimitAux
    split_ifs <;> simp_all [ih (i + 1)]

lemma pollLimitAux_all_new (statuses : ℕ → String)
    (h : ∀ i, statuses i = "NEW") :
    ∀ fuel i, pollLimitAux statuses i fuel
      = (List.replicate fuel OrderApiCall.getOrder ++ [OrderApiCall.cancelOrder], false) := by
  intro fuel
  induction fuel with
  | zero =>
    intro i
    simp [pollLimitAux]
  | succ n ih =>
    intro i
    unfold pollLimitAux
    rw [if_neg (by simp [h i]), if_neg (by simp [h i]), ih (i + 1)]
    simp [List.replicate_succ]

/-- Claim C7: a LIMIT entry polled once per second never falls back to a
MARKET order; if it is never `FILLED` nor in a terminal state within the
poll budget, a cancel request is issued and the decision fails; a polled
terminal state (`CANCELED` here) fails immediately with no cancel and no
further order; the poll budget defaults to 300 seconds. -/
theorem limit_order_timeout_spec :
    (∀ (maxWait : ℕ) (statuses : ℕ → String),
      OrderApiCall.createMarket ∉ (placeLimitOrder maxWait statuses).1)
    ∧ (∀ (maxWait : ℕ) (statuses : ℕ → String), (∀ i, statuses i = "NEW") →
      OrderApiCall.cancelOrder ∈ (placeLimitOrder maxWait statuses).1
        ∧ (placeLimitOrder maxWait statuses).2 = false)
    ∧ (∀ (maxWait : ℕ) (statuses : ℕ → String), 0 < maxWait →
      statuses 0 = "CANCELED" →
      placeLimitOrder maxWait statuses
        = ([OrderApiCall.createLimit, OrderApiCall.getOrder], false))
    ∧ limitMaxWaitTime none = 300 := by
  refine ⟨?_, ?_, ?_, rfl⟩
  · intro maxWait statuses hmem
    unfold placeLimitOrder at hmem
    simp only [List.mem_cons] at hmem
    rcases hmem with h | h
    · exact OrderApiCall.noConfusion h
    · exact pollLimitAux_no_market statuses maxWait 0 h
  · intro maxWait statuses h
    unfold placeLimitOrder
    rw [pollLimitAux_all_new statuses h maxWait 0]
    simp
  · intro maxWait statuses hpos hst
    obtain ⟨n, rfl⟩ : ∃ n, maxWait = n + 1 :=
      ⟨maxWait - 1, (Nat.succ_pred_eq_of_pos hpos).symm⟩
    unfold placeLimitOrder pollLimitAux
    rw [if_neg (by simp [hst]), if_pos (Or.inl hst)]

/-- Witness for C7 with a 3-second budget and an order that stays `NEW`. -/
theorem limit_order_timeout_spec_witness :
    (∀ i : ℕ, (fun _ : ℕ => "NEW") i = "NEW")
    ∧ OrderApiCall.cancelOrder ∈ (placeLimitOrder 3 (fun _ => "NEW")).1
    ∧ (placeLimitOrder 3 (fun _ => "NEW")).2 = false
    ∧ OrderApiCall.createMarket ∉ (placeLimitOrder 3 (fun _ => "NEW")).1 :=
  ⟨fun _ => rfl,
    (limit_order_timeout_spec.2.1 3 (fun _ => "NEW") (fun _ => rfl)).1,
    (limit_order_timeout_spec.2.1 3 (fun _ => "NEW") (fun _ => rfl)).2,
    limit_order_timeout_spec.1 3 (fun _ => "NEW")⟩

/-! ## Retry helper
(`_retry_api_call`, engine lines 1425-1469)

The loop distinguishes `BinanceAPIException` (business errors, break at
once), network errors (`aiohttp.ClientError` / `asyncio.TimeoutError` /
`OSError`, up to 5 attempts with waits 15/30/60/120 s), and any other
exception (up to `retries` = 3 attempts with waits `delay`, `delay·backoff`,
…).  On any final failure `_trigger_alarm` runs before the last error is
re-raised.  A run is modelled by the outcome of each numbered call and
flattened into the event sequence the loop produces. -/

/-- Error classes of `_retry_api_call`. -/
inductive ErrKind where
  | business : ErrKind
  | network : ErrKind
  | other : ErrKind
deriving DecidableEq

/-- Outcome of one underlying API call. -/
inductive CallResult where
  | ok : CallResult
  | err : ErrKind → CallResult
deriving DecidableEq

/-- Observable events of one `_retry_api_call` run. -/
inductive RetryEvent where
  | call : ℕ → RetryEvent
  | wait : ℚ → RetryEvent
  | alarm : RetryEvent
  | raised : ErrKind → RetryEvent
  | returned : RetryEvent
deriving DecidableEq

/-- Waits between network-error attempts. -/
def networkDelays : List ℚ := [15, 30, 60, 120]

/-- The retry loop.  `attempt` starts at 1; `fuel` only bounds the
recursion and is chosen large enough at the top level (the loop always
breaks by `attempt = max 5 retries`). -/
def retryAux (calls : ℕ → CallResult) (retries : ℕ) :
    ℕ → ℕ → ℚ → List RetryEvent
  | 0, _, _ => []
  | fuel + 1, attempt, delay =>
    match calls attempt with
    | CallResult.ok => [RetryEvent.call attempt, RetryEvent.returned]
    | CallResult.err ErrKind.business =>
      [RetryEvent.call attempt, RetryEvent.alarm, RetryEvent.raised ErrKind.business]
    | CallResult.err ErrKind.network =>
      if 5 ≤ attempt then
        [RetryEvent.call attempt, RetryEvent.alarm, RetryEvent.raised ErrKind.network]
      else
        RetryEvent.call attempt :: RetryEvent.wait (networkDelays.getD (attempt - 1) 120)
          :: retryAux calls retries fuel (attempt + 1) delay
    | CallResult.err ErrKind.other =>
      if retries ≤ attempt then
        [RetryEvent.call attempt, RetryEvent.alarm, RetryEvent.raised ErrKind.other]
      else
        RetryEvent.call attempt :: RetryEvent.wait delay
          :: retryAux calls retries fuel (attempt + 1) (delay * 2)

/-- `_retry_api_call` with its default arguments
(`retries = 3`, `delay = 2.0`, `backoff = 2.0`), as every call site in the
engine uses it. -/
def retryApiCall (calls : ℕ → CallResult) : List RetryEvent :=
  retryAux calls 3 9 1 2

/-- Claim C8: a business (structured exchange) error is never retried —
it propagates after its single attempt with an alarm written before the
raise (also when earlier attempts failed transiently); a run of transient
network errors is retried with waits of exactly 15, 30, 60, 120 seconds
between attempts and gives up after 5 attempts, writing the alarm before
re-raising the last error. -/
theorem retry_api_call_spec :
    (∀ calls : ℕ → CallResult, calls 1 = CallResult.err ErrKind.business →
      retryApiCall calls
        = [RetryEvent.call 1, RetryEvent.alarm, RetryEvent.raised ErrKind.business])
    ∧ (∀ calls : ℕ → CallResult, (∀ n, calls n = CallResult.err ErrKind.network) →
      retryApiCall calls
        = [RetryEvent.call 1, RetryEvent.wait 15,
           RetryEvent.call 2, RetryEvent.wait 30,
           RetryEvent.call 3, RetryEvent.wait 60,
           RetryEvent.call 4, RetryEvent.wait 120,
           RetryEvent.call 5, RetryEvent.alarm, RetryEvent.raised ErrKind.network])
    ∧ (∀ calls : ℕ → CallResult, calls 1 = CallResult.err ErrKind.network →
      calls 2 = CallResult.err ErrKind.business →
      retryApiCall calls
        = [RetryEvent.call 1, RetryEvent.wait 15,
           RetryEvent.call 2, RetryEvent.alarm, RetryEvent.raised ErrKind.business]) := by
  refine ⟨?_, ?_, ?_⟩
  · intro calls h
    simp [retryApiCall, retryAux, h]
  · intro calls h
    simp [retryApiCall, retryAux, h, networkDelays]
  · intro calls h1 h2
    simp [retryApiCall, retryAux, h1, h2, networkDelays]

/-- Witness for C8 on the all-network-errors run. -/
theorem retry_api_call_spec_witness :
    (∀ n : ℕ, (fun _ : ℕ => CallResult.err ErrKind.network) n
      = CallResult.err ErrKind.network)
    ∧ retryApiCall (fun _ => CallResult.err ErrKind.network)
      = [RetryEvent.call 1, RetryEvent.wait 15,
         RetryEvent.call 2, RetryEvent.wait 30,
         RetryEvent.call 3, RetryEvent.wait 60,
         RetryEvent.call 4, RetryEvent.wait 120,
         RetryEvent.call 5, RetryEvent.alarm, RetryEvent.raised ErrKind.network] :=
  ⟨fun _ => rfl,
    retry_api_call_spec.2.1 (fun _ => CallResult.err ErrKind.network) (fun _ => rfl)⟩

/-! ## Pre-trade safety gate
(`_perform_pre_trade_safety_checks`, engine lines 915-974, and its
invocation in `_execute_real_futures_trade`, lines 613-625)

Oracle inputs: the account fetch (`Except` — an `error` key fails the
balance check), the 24h change (`none` models a ticker fetch that raised,
which the source logs and skips), and the order book (`none` models a
depth fetch that raised; otherwise the bid and ask lists, with an empty
list giving a best price of 0 as in the source). -/

/-- The `{passed, reason}` verdict. -/
structure SafetyVerdict where
  passed : Bool
  reason : String
deriving DecidableEq

/-- `_perform_pre_trade_safety_checks`.  The three check-enable flags
default to true; checks run in order — balance, price anomaly,
liquidity — and the first failure short-circuits. -/
def performPreTradeSafetyChecks
    (checkBalance checkPriceAnomaly checkLiquidity : Option Bool)
    (accountInfo : Except String ℚ) (usdtAmount : Option ℚ)
    (priceChangePercent : Option ℚ)
    (depth : Option (List ℚ × List ℚ)) : SafetyVerdict :=
  let balanceFail : Option SafetyVerdict :=
    if checkBalance.getD true then
      match accountInfo with
      | Except.error e => some ⟨false, "cannot get account info: " ++ e⟩
      | Except.ok availableBalance =>
        if availableBalance < usdtAmount.getD 0 then
          some ⟨false, "insufficient available balance"⟩
        else none
    else none
  match balanceFail with
  | some v => v
  | none =>
    let anomalyFail : Option SafetyVerdict :=
      if checkPriceAnomaly.getD true then
        match priceChangePercent with
        | none => none
        | some change =>
          if 20 < |change| then some ⟨false, "abnormal price movement"⟩ else none
      else none
    match anomalyFail with
    | some v => v
    | none =>
      let liquidityFail : Option SafetyVerdict :=
        if checkLiquidity.getD true then
          match depth with
          | none => none
          | some (bids, asks) =>
            let bestBid := bids.headD 0
            let bestAsk := asks.headD 0
            if bestBid = 0 ∨ bestAsk = 0 then
              some ⟨false, "insufficient market liquidity"⟩
            else if 1 < (bestAsk - bestBid) / bestBid * 100 then
              some ⟨false, "spread too wide"⟩
            else none
        else none
      match liquidityFail with
      | some v => v
      | none => ⟨true, "all safety checks passed"⟩

/-- Actions treated as opening/adding in `_execute_real_futures_trade`. -/
def openLikeActions : List String :=
  ["long", "buy", "short", "sell", "add_to_long", "add_to_short"]

/-- The gate stage of `_execute_real_futures_trade` (lines 601-625):
`some err` means the trade returns a failed record before any order is
computed or submitted; `none` means execution proceeds.  The safety gate is
consulted only for open/add actions. -/
def executeTradeGateStage (action : String) (realTradingEnabled : Bool)
    (verdict : SafetyVerdict) : Option String :=
  if !realTradingEnabled then some "real trading not enabled"
  else if openLikeActions.contains action && !verdict.passed then
    some ("safety check failed: " ++ verdict.reason)
  else none

/-- Counterexample to claim C9 as stated: with best bid 100 and best ask
101 the relative spread is exactly 1%, so the claim's pass condition
`(ask − bid)/bid < 1%` is violated, yet the gate passes — the source fails
the check only for spreads strictly greater than 1%. -/
theorem safety_gate_claim_counterexample :
    performPreTradeSafetyChecks none none none (Except.ok 1000) (some 50)
      (some 0) (some ([100], [101]))
      = ⟨true, "all safety checks passed"⟩
    ∧ ¬ (((101 : ℚ) - 100) / 100 < 1/100) := by
  constructor
  · unfold performPreTradeSafetyChecks
    norm_num
  · norm_num

/-- Claim C9 (amended): the gate runs only for open/add actions, checks
balance, then price anomaly, then liquidity, the first failure
short-circuiting and fixing the reason; the liquidity pass condition is
`(ask − bid)/bid ≤ 1%` (the source rejects only spreads strictly above
1%); the gate always returns a verdict and a failed verdict on an open/add
action aborts execution before any order is submitted. -/
theorem safety_gate_amended :
    (∀ (avail u : ℚ) (pc : Option ℚ) (dep : Option (List ℚ × List ℚ)),
      avail < u →
      performPreTradeSafetyChecks none none none (Except.ok avail) (some u) pc dep
        = ⟨false, "insufficient available balance"⟩)
    ∧ (∀ (avail u ch : ℚ) (dep : Option (List ℚ × List ℚ)),
      u ≤ avail → 20 < |ch| →
      performPreTradeSafetyChecks none none none (Except.ok avail) (some u)
        (some ch) dep = ⟨false, "abnormal price movement"⟩)
    ∧ (∀ (avail u ch bid ask : ℚ) (bidsRest asksRest : List ℚ),
      u ≤ avail → |ch| ≤ 20 → bid ≠ 0 → ask ≠ 0 →
      1 < (ask - bid) / bid * 100 →
      performPreTradeSafetyChecks none none none (Except.ok avail) (some u)
        (some ch) (some (bid :: bidsRest, ask :: asksRest))
        = ⟨false, "spread too wide"⟩)
    ∧ (∀ (avail u ch bid ask : ℚ) (bidsRest asksRest : List ℚ),
      u ≤ avail → |ch| ≤ 20 → bid ≠ 0 → ask ≠ 0 →
      (ask - bid) / bid * 100 ≤ 1 →
      performPreTradeSafetyChecks none none none (Except.ok avail) (some u)
        (some ch) (some (bid :: bidsRest, ask :: asksRest))
        = ⟨true, "all safety checks passed"⟩)
    ∧ (∀ v : SafetyVerdict, executeTradeGateStage "close_long" true v = none)
    ∧ (∀ (action : String) (v : SafetyVerdict),
      openLikeActions.contains action = true → v.passed = false →
      executeTradeGateStage action true v
        = some ("safety check failed: " ++ v.reason)) := by
  refine ⟨?_, ?_, ?_, ?_, ?_, ?_⟩
  · intro avail u pc dep h
    unfold performPreTradeSafetyChecks
    simp [h]
  · intro avail u ch dep hu hch
    unfold performPreTradeSafetyChecks
    simp [not_lt.mpr hu, hch]
  · intro avail u ch bid ask bidsRest asksRest hu hch hbid hask hsp
    unfold performPreTradeSafetyChecks
    simp [not_lt.mpr hu, not_lt.mpr hch, hbid, hask, hsp]
  · intro avail u ch bid ask bidsRest asksRest hu hch hbid hask hsp
    unfold performPreTradeSafetyChecks
    simp [not_lt.mpr hu, not_lt.mpr hch, hbid, hask, not_lt.mpr hsp]
  · intro v
    simp [executeTradeGateStage, openLikeActions]
  · intro action v hact hv
    simp [executeTradeGateStage, hact, hv]
    simpa using hact

/-- Witness for C9 (amended): the spec's scenario 5 — bid 100, ask 102,
spread 2% — is rejected with the spread reason. -/
theorem safety_gate_amended_witness :
    ((50 : ℚ) ≤ 1000 ∧ |(0 : ℚ)| ≤ 20 ∧ (100 : ℚ) ≠ 0 ∧ (102 : ℚ) ≠ 0
      ∧ 1 < ((102 : ℚ) - 100) / 100 * 100)
    ∧ performPreTradeSafetyChecks none none none (Except.ok 1000) (some 50)
        (some 0) (some ([100], [102])) = ⟨false, "spread too wide"⟩ :=
  ⟨⟨by norm_num, by norm_num, by norm_num, by norm_num, by norm_num⟩,
    safety_gate_amended.2.2.1 1000 50 0 100 102 [] []
      (by norm_num) (by norm_num) (by norm_num) (by norm_num) (by norm_num)⟩

/-! ## Protective-order failure handling
(`_set_stop_loss_take_profit_orders`, engine lines 801-913, and the
post-entry success path of `_execute_real_futures_trade`,
lines 719-778) -/

/-- A protective order created by `_set_stop_loss_take_profit_orders`. -/
structure ProtectiveOrderReq where
  orderType : String
  side : String
  quantity : ℚ
  stopPrice : ℚ
  reduceOnly : Bool
deriving DecidableEq

/-- Result of one protective-order placement routine: the orders actually
created on the exchange and whether the routine wrote an alarm.  The
routine never raises — its whole body is wrapped in `try`/`except`. -/
structure SetTpSlOutcome where
  placedOrders : List ProtectiveOrderReq
  alarmed : Bool
deriving DecidableEq

/-- The take-profit half of `_set_stop_loss_take_profit_orders`: runs only
when the list is non-empty, uses its first price, and a create failure
aborts via the outer `except` with an alarm. -/
def placeTakeProfitPart (side : String) (quantity : ℚ)
    (takeProfitPrices : List ℚ) (tick : ℚ) (prec : ℕ) (lastPrice : ℚ)
    (tpOrderResult : Except String Unit)
    (placed : List ProtectiveOrderReq) : SetTpSlOutcome :=
  match takeProfitPrices with
  | [] => ⟨placed, false⟩
  | tp0 :: _ =>
    let tpSide := if side = "BUY" then "SELL" else "BUY"
    let tpPrice := adjustedTakeProfitPrice side tick prec lastPrice tp0
    match tpOrderResult with
    | Except.error _ => ⟨placed, true⟩
    | Except.ok _ =>
      ⟨placed ++ [⟨"TAKE_PROFIT_MARKET", tpSide, quantity, tpPrice, true⟩], false⟩

/-- `_set_stop_loss_take_profit_orders`: place the stop-loss (when the
price is truthy) then the take-profit; any raised error is caught by the
routine's own `except`, which writes an alarm and returns normally. -/
def setStopLossTakeProfitOrders (side : String) (quantity : ℚ)
    (stopLossPrice : Option ℚ) (takeProfitPrices : List ℚ)
    (tick : ℚ) (prec : ℕ) (lastPrice : ℚ)
    (stopOrderResult tpOrderResult : Except String Unit) : SetTpSlOutcome :=
  let slTruthy : Option ℚ :=
    match stopLossPrice with
    | none => none
    | some p => if p = 0 then none else some p
  match slTruthy with
  | some slp =>
    let stopSide := if side = "BUY" then "SELL" else "BUY"
    let slPrice := adjustedStopLossPrice side tick prec lastPrice slp
    match stopOrderResult with
    | Except.error _ => ⟨[], true⟩
    | Except.ok _ =>
      placeTakeProfitPart side quantity takeProfitPrices tick prec lastPrice
        tpOrderResult [⟨"STOP_MARKET", stopSide, quantity, slPrice, true⟩]
  | none =>
    placeTakeProfitPart side quantity takeProfitPrices tick prec lastPrice
      tpOrderResult []

/-- The decision record assembled on the entry-success path of
`_execute_real_futures_trade`. -/
structure OpenTradeReport where
  success : Bool
  protectiveOrders : List ProtectiveOrderReq
  alarmed : Bool
deriving DecidableEq

/-- Lines 719-778: when the entry order succeeded the protective routine
runs and the record reports `success = True` regardless of its outcome;
when the entry failed the record reports failure and an alarm. -/
def executeOpenTradeAfterEntry (entryOk : Bool) (prot : SetTpSlOutcome) :
    OpenTradeReport :=
  if entryOk then ⟨true, prot.placedOrders, prot.alarmed⟩
  else ⟨false, [], true⟩

/-- Claim C10: an error raised while placing the protective orders after a
filled entry is swallowed inside the routine — an alarm is written, nothing
propagates, and the decision is still reported successful; in particular a
stop-loss placement failure leaves zero protective orders resting while the
trade reports `success = true` (and a take-profit failure after a placed
stop-loss likewise reports success with an alarm). -/
theorem protective_failure_swallowed_spec
    (side : String) (qty slp : ℚ) (tps : List ℚ) (tick : ℚ) (prec : ℕ)
    (lastPrice : ℚ) (e : String) (tp0 : ℚ) (tpsRest : List ℚ)
    (hslp : slp ≠ 0) :
    ((setStopLossTakeProfitOrders side qty (some slp) tps tick prec lastPrice
        (Except.error e) (Except.ok ())).alarmed = true
      ∧ (setStopLossTakeProfitOrders side qty (some slp) tps tick prec lastPrice
        (Except.error e) (Except.ok ())).placedOrders = []
      ∧ (executeOpenTradeAfterEntry true
          (setStopLossTakeProfitOrders side qty (some slp) tps tick prec lastPrice
            (Except.error e) (Except.ok ()))).success = true
      ∧ (executeOpenTradeAfterEntry true
          (setStopLossTakeProfitOrders side qty (some slp) tps tick prec lastPrice
            (Except.error e) (Except.ok ()))).protectiveOrders = [])
    ∧ ((setStopLossTakeProfitOrders side qty (some slp) (tp0 :: tpsRest) tick prec
        lastPrice (Except.ok ()) (Except.error e)).alarmed = true
      ∧ (executeOpenTradeAfterEntry true
          (setStopLossTakeProfitOrders side qty (some slp) (tp0 :: tpsRest) tick
            prec lastPrice (Except.ok ()) (Except.error e))).success = true) := by
  have hout : setStopLossTakeProfitOrders side qty (some slp) tps tick prec
      lastPrice (Except.error e) (Except.ok ()) = ⟨[], true⟩ := by
    unfold setStopLossTakeProfitOrders
    simp [hslp]
  have hout2 : (setStopLossTakeProfitOrders side qty (some slp) (tp0 :: tpsRest)
      tick prec lastPrice (Except.ok ()) (Except.error e)).alarmed = true := by
    unfold setStopLossTakeProfitOrders placeTakeProfitPart
    simp [hslp]
  refine ⟨⟨?_, ?_, ?_, ?_⟩, hout2, ?_⟩ <;>
    simp [hout, hout2, executeOpenTradeAfterEntry]

/-- Witness for C10 at a long entry with stop-loss 29700. -/
theorem protective_failure_swallowed_spec_witness :
    ((29700 : ℚ) ≠ 0)
    ∧ ((setStopLossTakeProfitOrders "BUY" (4/100) (some 29700) [30600] (1/10) 1
        30000 (Except.error "network down") (Except.ok ())).alarmed = true
      ∧ (setStopLossTakeProfitOrders "BUY" (4/100) (some 29700) [30600] (1/10) 1
        30000 (Except.error "network down") (Except.ok ())).placedOrders = []
      ∧ (executeOpenTradeAfterEntry true
          (setStopLossTakeProfitOrders "BUY" (4/100) (some 29700) [30600] (1/10) 1
            30000 (Except.error "network down") (Except.ok ()))).success = true
      ∧ (executeOpenTradeAfterEntry true
          (setStopLossTakeProfitOrders "BUY" (4/100) (some 29700) [30600] (1/10) 1
            30000 (Except.error "network down") (Except.ok ()))).protectiveOrders
        = []) :=
  ⟨by norm_num,
    (protective_failure_swallowed_spec "BUY" (4/100) 29700 [30600] (1/10) 1 30000
      "network down" 30600 [] (by norm_num)).1⟩

/-! ## Entry quantity calculation
(`_calculate_trade_quantity`, engine lines 990-1081, and the
minimum-notional adjustment in `_execute_real_futures_trade`,
lines 703-710) -/

/-- `_calculate_trade_quantity`: cap the requested USDT amount at the
available balance, convert `usdt · leverage / price` to a quantity, floor
it to `minQty`, snap it to the step grid with Python's `round`, floor it to
`minQty` again, and fail (`raise`) on a non-positive balance or result. -/
def calculateTradeQuantity (available : ℚ) (usdtAmount : Option ℚ)
    (price lev step minQty : ℚ) (prec : ℕ) : Option ℚ :=
  if available ≤ 0 then none
  else
    let usdt : ℚ :=
      match usdtAmount with
      | none => 0
      | some u => if available < u then available else u
    let quantity0 := usdt * lev / price
    let quantity1 := if quantity0 < minQty then minQty else quantity0
    let quantity2 := snapToStep step prec quantity1
    let quantity3 := if quantity2 < minQty then minQty else quantity2
    if quantity3 ≤ 0 then none else some quantity3

/-- Step 8 of `_execute_real_futures_trade`: a non-reduce-only order whose
notional `quantity · price` is below `minNotional` has its quantity
replaced by `min_notional / max(price, 1e-9)`. -/
def entryQuantity (reduceOnly : Bool) (minNotional price quantity : ℚ) : ℚ :=
  if reduceOnly = false ∧ quantity * price < minNotional then
    minNotional / max price (1/10^9)
  else quantity

lemma floor_fifty_thirds : ⌊(50/3 : ℚ)⌋ = 16 :=
  Int.floor_eq_iff.mpr (by norm_num)

lemma pyRound_fifty_thirds : pyRound (50/3 : ℚ) = 17 := by
  unfold pyRound
  rw [floor_fifty_thirds]
  norm_num

lemma snap_thousandth_sixtieth : snapToStep (1/1000) 3 (1/60) = 17/1000 := by
  rw [snapToStep_eq (by norm_num) ⟨1, by norm_num⟩,
    show ((1 : ℚ)/60) / (1/1000) = 50/3 by norm_num, pyRound_fifty_thirds]
  norm_num

lemma floor_five_thousand_thirds : ⌊(5000/3 : ℚ)⌋ = 1666 :=
  Int.floor_eq_iff.mpr (by norm_num)

lemma pyRound_five_thousand_thirds : pyRound (5000/3 : ℚ) = 1667 := by
  unfold pyRound
  rw [floor_five_thousand_thirds]
  norm_num

/-- Counterexample to claim C3 as stated, on the spec's scenario 1 numbers
(`usdtAmount = 100`, `leverage = 5`, `last = 30000`,
`stepSize = minQty = 0.001`): the claim's "snapped down" quantity is
`⌊16.67⌋ · 0.001 = 0.016`, but the code uses Python's `round` (nearest)
and submits `0.017`; moreover the sub-minNotional bump
(`minNotional = 5` at `last = 3` on quantity `0.001`) yields `5/3`, which
is not re-snapped to the step grid as the claim requires
(its nearest step multiple would be `1.667`). -/
theorem calc_trade_quantity_claim_counterexample :
    calculateTradeQuantity 1000 (some 100) 30000 5 (1/1000) (1/1000) 3
      = some (17/1000)
    ∧ (17/1000 : ℚ) ≠ (⌊((100 * 5 : ℚ) / 30000) / (1/1000)⌋ : ℚ) * (1/1000)
    ∧ entryQuantity false 5 3 (1/1000) = 5/3
    ∧ snapToStep (1/1000) 3 (5/3) = 1667/1000
    ∧ (5/3 : ℚ) ≠ 1667/1000 := by
  refine ⟨?_, ?_, ?_, ?_, by norm_num⟩
  · unfold calculateTradeQuantity
    rw [if_neg (by norm_num)]
    simp only
    rw [if_neg (by norm_num : ¬ (1000 : ℚ) < 100),
      show (100 : ℚ) * 5 / 30000 = 1/60 by norm_num,
      if_neg (by norm_num : ¬ (1/60 : ℚ) < 1/1000),
      snap_thousandth_sixtieth,
      if_neg (by norm_num : ¬ (17/1000 : ℚ) < 1/1000),
      if_neg (by norm_num : ¬ (17/1000 : ℚ) ≤ 0)]
  · rw [show ((100 * 5 : ℚ) / 30000) / (1/1000) = 50/3 by norm_num,
      floor_fifty_thirds]
    norm_num
  · unfold entryQuantity
    rw [if_pos ⟨rfl, by norm_num⟩]
    norm_num
  · rw [snapToStep_eq (by norm_num) ⟨1, by norm_num⟩,
      show ((5 : ℚ)/3) / (1/1000) = 5000/3 by norm_num,
      pyRound_five_thousand_thirds]
    norm_num

/-- Claim C3 (amended): for an open/add entry the quantity is
`(usdtAmount · leverage) / last` snapped to the **nearest** multiple of
`stepSize` (Python `round`, half to even) — not snapped down — and floored
to `minQty`; when the notional of a non-reduce-only order falls below
`minNotional` the quantity is replaced by `minNotional / last` **without**
re-snapping to `stepSize`, so the submitted notional is at least
`minNotional`. -/
theorem calc_trade_quantity_amended
    (available u price lev step minQty : ℚ) (prec : ℕ)
    (havail : 0 < available) (hprice : 0 < price) (hstep : 0 < step)
    (hminq : 0 < minQty) (hu : u ≤ available)
    (hg : DecimalAt step prec) (hq0 : minQty ≤ u * lev / price) :
    calculateTradeQuantity available (some u) price lev step minQty prec
      = some (if (pyRound (u * lev / price / step) : ℚ) * step < minQty then minQty
              else (pyRound (u * lev / price / step) : ℚ) * step)
    ∧ (∀ q, calculateTradeQuantity available (some u) price lev step minQty prec
        = some q →
        minQty ≤ q ∧ ((∃ n : ℤ, q = (n : ℚ) * step) ∨ q = minQty))
    ∧ (∀ quantity mn : ℚ, (1 : ℚ)/10^9 ≤ price →
        mn ≤ entryQuantity false mn price quantity * price) := by
  have hmain : calculateTradeQuantity available (some u) price lev step minQty prec
      = some (if (pyRound (u * lev / price / step) : ℚ) * step < minQty then minQty
              else (pyRound (u * lev / price / step) : ℚ) * step) := by
    unfold calculateTradeQuantity
    rw [if_neg (not_le.mpr havail)]
    simp only
    rw [if_neg (not_lt.mpr hu), if_neg (not_lt.mpr hq0),
      snapToStep_eq hstep hg]
    by_cases hc : (pyRound (u * lev / price / step) : ℚ) * step < minQty
    · rw [if_pos hc, if_neg (not_le.mpr hminq)]
    · rw [if_neg hc,
        if_neg (not_le.mpr (lt_of_lt_of_le hminq (not_lt.mp hc)))]
  refine ⟨hmain, ?_, ?_⟩
  · intro q hq
    rw [hmain] at hq
    injection hq with hq
    by_cases hc : (pyRound (u * lev / price / step) : ℚ) * step < minQty
    · rw [if_pos hc] at hq
      exact ⟨le_of_eq hq, Or.inr hq.symm⟩
    · rw [if_neg hc] at hq
      exact ⟨hq ▸ not_lt.mp hc, Or.inl ⟨pyRound (u * lev / price / step), hq.symm⟩⟩
  · intro quantity mn hpe
    unfold entryQuantity
    by_cases h : quantity * price < mn
    · rw [if_pos ⟨rfl, h⟩, max_eq_left hpe,
        div_mul_cancel₀ mn (ne_of_gt hprice)]
    · rw [if_neg (by
        rintro ⟨-, hlt⟩
        exact h hlt)]
      exact not_lt.mp h

/-- Witness for C3 (amended) on the scenario-1 inputs. -/
theorem calc_trade_quantity_amended_witness :
    ((0 : ℚ) < 1000 ∧ (0 : ℚ) < 30000 ∧ (0 : ℚ) < 1/1000 ∧ (0 : ℚ) < 1/1000
      ∧ (100 : ℚ) ≤ 1000 ∧ DecimalAt (1/1000) 3
      ∧ (1/1000 : ℚ) ≤ 100 * 5 / 30000)
    ∧ (calculateTradeQuantity 1000 (some 100) 30000 5 (1/1000) (1/1000) 3
      = some (if (pyRound ((100 : ℚ) * 5 / 30000 / (1/1000)) : ℚ) * (1/1000) < 1/1000
              then 1/1000
              else (pyRound ((100 : ℚ) * 5 / 30000 / (1/1000)) : ℚ) * (1/1000))
    ∧ (∀ q, calculateTradeQuantity 1000 (some 100) 30000 5 (1/1000) (1/1000) 3
        = some q →
        (1/1000 : ℚ) ≤ q ∧ ((∃ n : ℤ, q = (n : ℚ) * (1/1000)) ∨ q = 1/1000))
    ∧ (∀ quantity mn : ℚ, (1 : ℚ)/10^9 ≤ 30000 →
        mn ≤ entryQuantity false mn 30000 quantity * 30000)) :=
  ⟨⟨by norm_num, by norm_num, by norm_num, by norm_num, by norm_num,
      ⟨1, by norm_num⟩, by norm_num⟩,
    calc_trade_quantity_amended 1000 100 30000 5 (1/1000) (1/1000) 3
      (by norm_num) (by norm_num) (by norm_num) (by norm_num) (by norm_num)
      ⟨1, by norm_num⟩ (by norm_num)⟩

/-! ## Reduce / close quantity calculation
(`_calculate_reduce_quantity`, engine lines 1083-1144, and the
no-position guard in `_execute_real_futures_trade`, lines 647-652) -/

/-- Python's `reduce_percent or close_percent`: `close_percent` is used
when `reduce_percent` is `None` or falsy (`0`). -/
def pythonOrPercent (reducePercent closePercent : Option ℚ) : Option ℚ :=
  match reducePercent with
  | some x => if x = 0 then closePercent else some x
  | none => closePercent

/-- The unsnapped reduce quantity: the percentage branch (clamped to
`[0, 100]`), else the `reduce_usdt` branch, else the full position. -/
def reduceBaseQuantity (absAmt price : ℚ) (rp cp ru : Option ℚ) : ℚ :=
  match pythonOrPercent rp cp with
  | some x => absAmt * (max 0 (min 100 x) / 100)
  | none =>
    match ru with
    | some r => max 0 (r / max price (1/10^9))
    | none => absAmt

/-- `_calculate_reduce_quantity`: fail on a zero position, compute the
base quantity, cap it at `|position_amount|`, snap it to the step grid
with Python's `round`, and fail on a non-positive result. -/
def calculateReduceQuantity (amt price : ℚ) (rp cp ru : Option ℚ)
    (step : ℚ) (prec : ℕ) : Option ℚ :=
  if |amt| ≤ 0 then none
  else
    let qty := reduceBaseQuantity |amt| price rp cp ru
    let qty2 := if |amt| < qty then |amt| else qty
    let qty3 := snapToStep step prec qty2
    if qty3 ≤ 0 then none else some qty3

/-- The reduce/close path of `_execute_real_futures_trade` (lines
647-652): a missing or zero position raises before any order is placed;
otherwise the quantity comes from `_calculate_reduce_quantity`. -/
def reduceFlowQuantity (pos : Option ℚ) (price : ℚ) (rp cp ru : Option ℚ)
    (step : ℚ) (prec : ℕ) : Except String ℚ :=
  match pos with
  | none => Except.error "no position to reduce or close"
  | some amt =>
    if |amt| ≤ 0 then Except.error "no position to reduce or close"
    else
      match calculateReduceQuantity amt price rp cp ru step prec with
      | none => Except.error "computed reduce quantity is zero"
      | some q => Except.ok q

lemma floor_eighty_three_fifths : ⌊(83/5 : ℚ)⌋ = 16 :=
  Int.floor_eq_iff.mpr (by norm_num)

lemma pyRound_eighty_three_fifths : pyRound (83/5 : ℚ) = 17 := by
  unfold pyRound
  rw [floor_eighty_three_fifths]
  norm_num

/-- Counterexample to claim C4 as stated: for a long position of
`0.0166` (not on the step grid) closed with `closePercent = 100` at
`stepSize = 0.001`, the cap at `|positionAmount|` is applied **before**
snapping, and Python's nearest-rounding then lifts the quantity to
`0.017 > 0.0166` — the submitted quantity exceeds `|positionAmount|`. -/
theorem calc_reduce_quantity_claim_counterexample :
    calculateReduceQuantity (166/10000) 30000 none (some 100) none (1/1000) 3
      = some (17/1000)
    ∧ ¬ ((17/1000 : ℚ) ≤ |(166/10000 : ℚ)|) := by
  constructor
  · unfold calculateReduceQuantity reduceBaseQuantity pythonOrPercent
    rw [if_neg (by rw [abs_of_pos (by norm_num)]; norm_num)]
    simp only
    rw [show max (0:ℚ) (min 100 100) / 100 = 1 by norm_num,
      abs_of_pos (by norm_num : (0:ℚ) < 166/10000), mul_one,
      if_neg (lt_irrefl _),
      snapToStep_eq (by norm_num) ⟨1, by norm_num⟩,
      show ((166 : ℚ)/10000) / (1/1000) = 83/5 by norm_num,
      pyRound_eighty_three_fifths,
      show ((17 : ℤ) : ℚ) * (1/1000) = 17/1000 by norm_num,
      if_neg (by norm_num : ¬ (17/1000 : ℚ) ≤ 0)]
  · rw [abs_of_pos (by norm_num : (0:ℚ) < 166/10000)]
    norm_num

/-- Claim C4 (amended): a reduce/close with no position (or a zero
position amount) fails with a no-position error before any order is
submitted; otherwise the quantity is the scaled position capped at
`|positionAmount|` **before** being snapped to the nearest multiple of
`stepSize`, so whenever `|positionAmount|` is itself on the step grid (as
exchange positions are) the submitted quantity is a multiple of `stepSize`
and never exceeds `|positionAmount|`. -/
theorem calc_reduce_quantity_amended
    (amt price step : ℚ) (prec : ℕ) (rp cp ru : Option ℚ)
    (hamt : amt ≠ 0) (hstep : 0 < step) (hg : DecimalAt step prec)
    (n : ℤ) (hn : |amt| = (n : ℚ) * step) :
    reduceFlowQuantity none price rp cp ru step prec
      = Except.error "no position to reduce or close"
    ∧ (∀ q, calculateReduceQuantity amt price rp cp ru step prec = some q →
        q ≤ |amt| ∧ ∃ m : ℤ, q = (m : ℚ) * step)
    ∧ (∀ q, reduceFlowQuantity (some amt) price rp cp ru step prec
        = Except.ok q →
        calculateReduceQuantity amt price rp cp ru step prec = some q) := by
  have habs : ¬ (|amt| ≤ 0) := not_le.mpr (abs_pos.mpr hamt)
  refine ⟨rfl, ?_, ?_⟩
  · intro q hq
    unfold calculateReduceQuantity at hq
    rw [if_neg habs] at hq
    simp only at hq
    set qty := reduceBaseQuantity |amt| price rp cp ru with hqty
    set qty2 := if |amt| < qty then |amt| else qty with hqty2
    have hcap : qty2 ≤ |amt| := by
      rw [hqty2]
      by_cases h : |amt| < qty
      · rw [if_pos h]
      · rw [if_neg h]
        exact not_lt.mp h
    have hle : snapToStep step prec qty2 ≤ |amt| := by
      rw [hn]
      exact snapToStep_le_grid hstep hg (hn ▸ hcap)
    by_cases h0 : snapToStep step prec qty2 ≤ 0
    · rw [if_pos h0] at hq
      exact Option.noConfusion hq
    · rw [if_neg h0] at hq
      injection hq with hq
      refine ⟨hq ▸ hle, pyRound (qty2 / step), ?_⟩
      rw [← hq, snapToStep_eq hstep hg]
  · intro q hq
    simp only [reduceFlowQuantity] at hq
    rw [if_neg habs] at hq
    cases hcalc : calculateReduceQuantity amt price rp cp ru step prec with
    | none =>
      rw [hcalc] at hq
      exact Except.noConfusion hq
    | some q' =>
      rw [hcalc] at hq
      injection hq with hq
      rw [hq]

/-- Witness for C4 (amended) on the spec's scenario 6: position `0.040`,
`closePercent = 50`, `stepSize = 0.001` (`0.040 = 40 · 0.001`). -/
theorem calc_reduce_quantity_amended_witness :
    ((4/100 : ℚ) ≠ 0 ∧ (0 : ℚ) < 1/1000 ∧ DecimalAt (1/1000) 3
      ∧ |(4/100 : ℚ)| = ((40 : ℤ) : ℚ) * (1/1000))
    ∧ (reduceFlowQuantity none 30000 none (some 50) none (1/1000) 3
      = Except.error "no position to reduce or close"
    ∧ (∀ q, calculateReduceQuantity (4/100) 30000 none (some 50) none (1/1000) 3
        = some q →
        q ≤ |(4/100 : ℚ)| ∧ ∃ m : ℤ, q = (m : ℚ) * (1/1000))
    ∧ (∀ q, reduceFlowQuantity (some (4/100)) 30000 none (some 50) none (1/1000) 3
        = Except.ok q →
        calculateReduceQuantity (4/100) 30000 none (some 50) none (1/1000) 3
          = some q)) :=
  ⟨⟨by norm_num, by norm_num, ⟨1, by norm_num⟩, by norm_num⟩,
    calc_reduce_quantity_amended (4/100) 30000 (1/1000) 3 none (some 50) none
      (by norm_num) (by norm_num) ⟨1, by norm_num⟩ 40 (by norm_num)⟩

end FuturesEngine
